import Mathlib

/-!
Verification of the constraint-based lineup optimization engine in `dfs`
(`src/dfs/optimize.py`, `src/dfs/constraints.py`, `src/dfs/nfl/optimize.py`,
`src/dfs/nfl/slate.py`, `src/dfs/positions.py`, `src/dfs/pulp_utils.py`).

The Python code is shallowly embedded: pandas data frames become lists of
records, mutable optimizer state becomes explicit state passing, raised
exceptions become `Except` errors, and PuLP linear constraints become
explicit term lists compared against a bound.  Configurable column labels
(`team_col`, `salary_col`, ...) are carried verbatim in the constraint
constructors (mirroring the Python constructors) but resolve to fixed record
fields of the embedded rows.
-/

namespace Dfs

/-! ## Positions (`src/dfs/positions.py`)

`QB`, `RB`, `WR`, `TE`, `DST` are the string constants of
`dfs/positions.py`.  `FLEX` is imported by `dfs/optimize.py` from
`dfs.nfl.positions`, a module whose file is not present in the sources;
it is a slot-label constant and is modelled as the string literal used in
the lineup-slot relabeling. -/

def QB : String := "QB"

def RB : String := "RB"

def WR : String := "WR"

def TE : String := "TE"

def DST : String := "DST"

/-- Modelled from the spec: `dfs/nfl/positions.py` is absent from the sources;
`FLEX` is the flexible lineup-slot label assigned by flex-slot resolution. -/
def FLEX : String := "FLEX"

/-- `normalize_position` of `src/dfs/positions.py`: uppercase the string,
strip every character matched by the regex `\W|_` (i.e. keep only
alphanumeric characters), and map recognized abbreviations or full words to
the closed position enum; anything else normalizes to `none`.  The
argument is `Option`-valued because Python passes through `None`. -/
def normalize_position (position : Option String) : Option String :=
  match position with
  | none => none
  | some position =>
    let upper := String.mk (position.toList.map Char.toUpper)
    let normalized := String.mk (upper.toList.filter Char.isAlphanum)
    if ["QB", "QUARTERBACK"].contains normalized then some QB
    else if ["RB", "RUNNINGBACK"].contains normalized then some RB
    else if ["WR", "WIDERECEIVER"].contains normalized then some WR
    else if ["TE", "TIGHTEND"].contains normalized then some TE
    else if ["DST", "DEFENSE", "DEF", "DEFENSESPECIALTEAMS", "D"].contains normalized then some DST
    else none

/-! ## Game datetimes

A pandas timestamp is represented by the three observations the engine
makes of it: a totally ordered instant `ts` (used for sorting by game
start time), Python's `weekday()` (`0` = Monday, `6` = Sunday) and
`hour`. -/

structure Dt where
  ts : Int
  weekday : Nat
  hour : Nat
deriving DecidableEq, Repr

/-! ## Game slates (`src/dfs/nfl/slate.py`) -/

inductive GameSlate where
  | nflAll
  | nflSunday
  | nflSundayAndMonday
  | nflSundayEarly
  | nflSundayEarlyAndLate
  | nflMonday
  | nflMondayAndThursday
deriving DecidableEq, Repr

/-! ## Player records

A cleaned player row of the optimizer data frame (after
`LineupOptimizer.__init__` has normalized positions and dropped invalid
rows).  Salaries and points are rationals (the data frame holds numeric
values); `week`/`year` are integers. -/

structure Player where
  name : String
  position : String
  year : Int
  week : Int
  points : ℚ
  salary : ℚ
  team : String
  opponent : String
  datetime : Dt
  is_home : Bool
deriving DecidableEq, Repr

/-- The weeks appearing in the data, in first-encounter order — the
embedding of `data[week_col].unique()` (pandas `unique` preserves order of
first occurrence). -/
def uniqueWeeks (data : List Player) : List Int :=
  data.foldl (fun acc p => if acc.contains p.week then acc else acc ++ [p.week]) []

/-- `NflMondayAndThursdayGameSlate.filter_function` contains the Python
expression `row[label].weekday == 0` (`src/dfs/nfl/slate.py`, line 89):
unlike the sibling slates it does not call the method, so a bound-method
object is compared with the integer `0`, which is `False` for every row.
This definition embeds that expression. -/
def weekday_method_eq_zero (_d : Dt) : Bool := false

/-- `filter_function` of each slate class in `src/dfs/nfl/slate.py`.  The
`weeks` argument is passed only to the Monday-and-Thursday slate
(`GameSlateConstraint.apply` computes it as `data[week_col].unique()`);
`weeks.getD i 0` embeds the Python index `weeks[i]` (the engine only
reaches it with two distinct weeks present). -/
def slateFilter (slate : GameSlate) (row : Player) (weeks : List Int) : Bool :=
  match slate with
  | .nflAll => true
  | .nflSunday => row.datetime.weekday == 6
  | .nflSundayAndMonday => row.datetime.weekday == 0 || row.datetime.weekday == 6
  | .nflSundayEarly => row.datetime.weekday == 6 && row.datetime.hour == 13
  | .nflSundayEarlyAndLate =>
      row.datetime.weekday == 6 && (row.datetime.hour == 13 || row.datetime.hour == 16)
  | .nflMonday => row.datetime.weekday == 0
  | .nflMondayAndThursday =>
      (row.week == weeks.getD 0 0 && weekday_method_eq_zero row.datetime) ||
      (row.week == weeks.getD 1 0 && row.datetime.weekday == 3)

/-! ## Constraints (`src/dfs/constraints.py`)

One constructor per `LineupConstraint` subclass, carrying exactly the
constructor parameters of the Python class. -/

inductive LineupConstraint where
  | lineupSize (size : Int)
  | maxSalaryCap (salary : ℚ) (salary_col : String)
  | minSalaryCap (salary : ℚ) (salary_col : String)
  | onlyIncludeTeams (teams : List String) (team_column : String)
  | includePlayer (player : String) (name_col : String)
  | excludePlayer (player : String) (name_col : String)
  | maxPlayersFromTeam (maximum : Int) (team : String) (team_col : String)
  | minPlayersFromTeam (minimum : Int) (team : String) (team_col : String)
  | qbReceiverStack (position_col : String) (team : String) (team_col : String)
      (position : Option String) (num_receivers : Option Int)
  | rbDstStack (team : String) (team_col : String) (position_col : String)
  | gameSlate (slate : GameSlate) (datetime_col : String) (week_col : String) (num_players : Int)
deriving DecidableEq, Repr

namespace IsValid

/-- The validation loop of `MaxSalaryCapConstraint.is_valid`: reject when an
existing `MinSalaryCapConstraint` has `constraint.salary > self.salary`. -/
def maxSalaryCap (salary : ℚ) : List LineupConstraint → Bool × Option String
  | [] => (true, none)
  | c :: rest =>
    match c with
    | .minSalaryCap s _ =>
        if s > salary then
          (false, some "A min-salary constraint with value greater than this is already included.")
        else maxSalaryCap salary rest
    | _ => maxSalaryCap salary rest

/-- The validation loop of `MinSalaryCapConstraint.is_valid`: reject when an
existing `MaxSalaryCapConstraint` has `constraint.salary < self.salary`. -/
def minSalaryCap (salary : ℚ) : List LineupConstraint → Bool × Option String
  | [] => (true, none)
  | c :: rest =>
    match c with
    | .maxSalaryCap s _ =>
        if s < salary then
          (false, some "A max-salary constraint with value less than this is already included.")
        else minSalaryCap salary rest
    | _ => minSalaryCap salary rest

/-- The validation loop of `OnlyIncludeTeamsConstraint.is_valid`: reject when
every team on the inclusion list already has a `MaxPlayersFromTeamConstraint`
with `maximum == 0`. -/
def onlyIncludeTeams (teams : List String) (cs : List LineupConstraint) : Bool × Option String :=
  if teams.all (fun k =>
      cs.any (fun c =>
        match c with
        | .maxPlayersFromTeam m t _ => t == k && m == 0
        | _ => false)) then
    (false, some "All teams on the list to include are already excluded")
  else (true, none)

/-- The validation loop of `IncludePlayerConstraint.is_valid`: reject when the
same player is already excluded. -/
def includePlayer (player : String) : List LineupConstraint → Bool × Option String
  | [] => (true, none)
  | c :: rest =>
    match c with
    | .excludePlayer p _ =>
        if player == p then
          (false, some "This player is already set to be excluded from lineup")
        else includePlayer player rest
    | _ => includePlayer player rest

/-- The validation loop of `ExcludePlayerConstraint.is_valid`: reject when the
same player is already included. -/
def excludePlayer (player : String) : List LineupConstraint → Bool × Option String
  | [] => (true, none)
  | c :: rest =>
    match c with
    | .includePlayer p _ =>
        if player == p then
          (false, some "This player is already set to be included in lineup")
        else excludePlayer player rest
    | _ => excludePlayer player rest

/-- The validation loop of `MaxPlayersFromTeamConstraint.is_valid`: reject when
the team already has a max-players constraint, or an existing min-players
constraint for the team has `minimum > maximum`. -/
def maxPlayersFromTeam (maximum : Int) (team : String) :
    List LineupConstraint → Bool × Option String
  | [] => (true, none)
  | c :: rest =>
    match c with
    | .maxPlayersFromTeam _ t _ =>
        if t == team then (false, some "Max players from this team already set")
        else maxPlayersFromTeam maximum team rest
    | .minPlayersFromTeam m t _ =>
        if t == team && m > maximum then
          (false, some "Min players from this team already set to a value greater than this maximum")
        else maxPlayersFromTeam maximum team rest
    | _ => maxPlayersFromTeam maximum team rest

/-- The validation loop of `MinPlayersFromTeamConstraint.is_valid`: reject when
the team already has a min-players constraint, or an existing max-players
constraint for the team has `maximum < minimum`. -/
def minPlayersFromTeam (minimum : Int) (team : String) :
    List LineupConstraint → Bool × Option String
  | [] => (true, none)
  | c :: rest =>
    match c with
    | .minPlayersFromTeam _ t _ =>
        if t == team then (false, some "Min players from this team already set")
        else minPlayersFromTeam minimum team rest
    | .maxPlayersFromTeam m t _ =>
        if t == team && m < minimum then
          (false, some "Max players from this team already set to a value less than this minimum")
        else minPlayersFromTeam minimum team rest
    | _ => minPlayersFromTeam minimum team rest

/-- The validation loop of `QbReceiverStackConstraint.is_valid` (and of its
identical NFL twin in `src/dfs/nfl/constraints.py`). -/
def qbReceiverStack (team : String) : List LineupConstraint → Bool × Option String
  | [] => (true, none)
  | c :: rest =>
    match c with
    | .qbReceiverStack _ _ _ _ _ =>
        (false, some "A QB/receiver stack is already included for this lineup")
    | .maxPlayersFromTeam m t _ =>
        if t == team && m < 2 then
          (false, some ("Max players from " ++ team ++ " is already set to " ++ toString m))
        else qbReceiverStack team rest
    | _ => qbReceiverStack team rest

/-- The validation loop of `RbDstStackConstraint.is_valid`. -/
def rbDstStack (team : String) : List LineupConstraint → Bool × Option String
  | [] => (true, none)
  | c :: rest =>
    match c with
    | .rbDstStack _ _ _ =>
        (false, some "An RB/DST stack constraint is already included for this lineup")
    | .maxPlayersFromTeam m t _ =>
        if t == team && m < 2 then
          (false, some ("Max players from " ++ team ++ " is already set to " ++ toString m))
        else rbDstStack team rest
    | _ => rbDstStack team rest

/-- The validation loop of `GameSlateConstraint.is_valid`: at most one slate
constraint may be active. -/
def gameSlate : List LineupConstraint → Bool × Option String
  | [] => (true, none)
  | c :: rest =>
    match c with
    | .gameSlate _ _ _ _ =>
        (false, some "Optimizer already includes a game slate-related constraint")
    | _ => gameSlate rest

end IsValid

/-- Dispatch of `is_valid` on the runtime class of the candidate constraint
(`LineupSizeConstraint.is_valid` always accepts). -/
def is_valid (c : LineupConstraint) (cs : List LineupConstraint) : Bool × Option String :=
  match c with
  | .lineupSize _ => (true, none)
  | .maxSalaryCap s _ => IsValid.maxSalaryCap s cs
  | .minSalaryCap s _ => IsValid.minSalaryCap s cs
  | .onlyIncludeTeams ts _ => IsValid.onlyIncludeTeams ts cs
  | .includePlayer p _ => IsValid.includePlayer p cs
  | .excludePlayer p _ => IsValid.excludePlayer p cs
  | .maxPlayersFromTeam m t _ => IsValid.maxPlayersFromTeam m t cs
  | .minPlayersFromTeam m t _ => IsValid.minPlayersFromTeam m t cs
  | .qbReceiverStack _ t _ _ _ => IsValid.qbReceiverStack t cs
  | .rbDstStack t _ _ => IsValid.rbDstStack t cs
  | .gameSlate _ _ _ _ => IsValid.gameSlate cs

/-! ## Errors (`src/dfs/exceptions.py` plus built-in `ValueError`) -/

inductive DfsError where
  | valueError (msg : String)
  | invalidDataFrame (msg : String)
  | invalidConstraint (msg : String)
  | unsolvableLineup (msg : String)
deriving DecidableEq, Repr

/-- `LineupOptimizer._add_constraint` (`src/dfs/optimize.py`, lines 508-520):
validate the candidate against the current set; append it when valid,
otherwise raise `InvalidConstraintException` with the reason.  The error
value carries the constraint set as it stands when the exception is raised
(the method itself mutates nothing on failure). -/
def add_constraint (cs : List LineupConstraint) (c : LineupConstraint) :
    Except (DfsError × List LineupConstraint) (List LineupConstraint) :=
  match is_valid c cs with
  | (true, _) => .ok (cs ++ [c])
  | (false, message) =>
      .error (.invalidConstraint ("Invalid constraint: " ++ message.getD ""), cs)

/-! ## Site profiles and the optimizer state (`src/dfs/optimize.py`, `src/dfs/nfl/optimize.py`)

`LineupOptimizer` is abstract over the site; the abstract methods
`num_players`, `salary_cap`, `site_name` and `position_constraints` become
the fields of `SiteProfile` (the dict returned by `position_constraints` is
an association list in iteration order).  The optimizer state is the
cleaned data frame, the configurable column labels consulted when
constructing constraints, and the mutable `_constraints` list. -/

structure SiteProfile where
  num_players : Int
  salary_cap : ℚ
  site_name : String
  position_constraints : List (String × Int × Int)
deriving DecidableEq, Repr

/-- The `position_constraints()` dict lookup `position_constraints()[position]`
used by flex-slot resolution.  A missing key raises `KeyError` in Python;
the `(0, 0)` default is never consulted for the site profiles in the
sources, whose dicts all carry `RB`, `WR` and `TE`. -/
def positionBounds (profile : SiteProfile) (pos : String) : Int × Int :=
  (profile.position_constraints.find? (fun pc => pc.1 == pos)).map Prod.snd |>.getD (0, 0)

structure Optimizer where
  profile : SiteProfile
  data : List Player
  name_col : String := "name"
  team_col : String := "team"
  salary_col : String := "salary"
  datetime_col : String := "datetime"
  week_col : String := "week"
  constraintsList : List LineupConstraint := []
deriving DecidableEq, Repr

/-- State-threading form of `_add_constraint` on the whole optimizer. -/
def addC (o : Optimizer) (c : LineupConstraint) : Except (DfsError × Optimizer) Optimizer :=
  match add_constraint o.constraintsList c with
  | .ok cs => .ok { o with constraintsList := cs }
  | .error (e, cs) => .error (e, { o with constraintsList := cs })

/-- Membership test `team in self.data[team_col].unique()`. -/
def teamInData (o : Optimizer) (team : String) : Bool :=
  o.data.any (fun p => p.team == team)

/-- `LineupOptimizer.set_max_players_from_team` (`src/dfs/optimize.py`,
lines 433-448).  `n` and `team` are `Option`-valued to embed the Python
`None` checks. -/
def set_max_players_from_team (o : Optimizer) (n : Option Int) (team : Option String) :
    Except (DfsError × Optimizer) Optimizer :=
  match n with
  | none => .error (.valueError "Invalid maximum players", o)
  | some n =>
    if n < 0 then .error (.valueError "Invalid maximum players", o)
    else
      match team with
      | none => .error (.valueError "Invalid team name", o)
      | some team =>
        if ¬ teamInData o team then .error (.valueError "Invalid team name", o)
        else addC o (.maxPlayersFromTeam n team o.team_col)

/-- `LineupOptimizer.set_min_players_from_team` (`src/dfs/optimize.py`,
lines 450-467): after validating the arguments, `n == 0` returns early
without touching the constraint set. -/
def set_min_players_from_team (o : Optimizer) (n : Option Int) (team : Option String) :
    Except (DfsError × Optimizer) Optimizer :=
  match n with
  | none => .error (.valueError "Invalid minimum number of players", o)
  | some n =>
    if n > o.profile.num_players then .error (.valueError "Invalid minimum number of players", o)
    else
      match team with
      | none => .error (.valueError "Invalid team name", o)
      | some team =>
        if ¬ teamInData o team then .error (.valueError "Invalid team name", o)
        else if n == 0 then .ok o
        else addC o (.minPlayersFromTeam n team o.team_col)

/-- `LineupOptimizer.set_num_players_from_team` (`src/dfs/optimize.py`,
lines 409-431): add the max-players constraint, then the min-players
constraint; when the latter raises `InvalidConstraintException`, pop the
just-added max-players constraint from the set and re-raise. -/
def set_num_players_from_team (o : Optimizer) (n : Option Int) (team : Option String) :
    Except (DfsError × Optimizer) Optimizer :=
  match n with
  | none => .error (.valueError "Invalid number of players", o)
  | some n =>
    if n > o.profile.num_players then .error (.valueError "Invalid number of players", o)
    else
      match team with
      | none => .error (.valueError "Invalid team name", o)
      | some team =>
        if ¬ teamInData o team then .error (.valueError "Invalid team name", o)
        else
          match addC o (.maxPlayersFromTeam n team o.team_col) with
          | .error e => .error e
          | .ok o1 =>
            match addC o1 (.minPlayersFromTeam n team o1.team_col) with
            | .ok o2 => .ok o2
            | .error (e, o2) =>
                .error (e, { o2 with constraintsList := o2.constraintsList.dropLast })

/-- The loop body of `set_exclude_teams`: `for team in teams:
set_max_players_from_team(n=0, team=team)`.  A raised exception aborts the
loop with whatever state the earlier iterations left behind. -/
def excludeTeamsLoop (o : Optimizer) : List String → Except (DfsError × Optimizer) Optimizer
  | [] => .ok o
  | t :: ts =>
    match set_max_players_from_team o (some 0) (some t) with
    | .ok o1 => excludeTeamsLoop o1 ts
    | .error e => .error e

/-- `LineupOptimizer.set_exclude_teams` (`src/dfs/optimize.py`,
lines 351-362). -/
def set_exclude_teams (o : Optimizer) (teams : Option (List String)) :
    Except (DfsError × Optimizer) Optimizer :=
  match teams with
  | none => .error (.valueError "Teams to exclude must not be none or empty", o)
  | some teams =>
    if teams.length == 0 then .error (.valueError "Teams to exclude must not be none or empty", o)
    else excludeTeamsLoop o teams

/-- `NflLineupOptimizer.set_game_slate_monday_and_thursday`
(`src/dfs/nfl/optimize.py`, lines 110-120): a `ValueError` (not an
`InvalidConstraintException`) is raised before `set_game_slate` when the
data frame does not span exactly two distinct week values. -/
def set_game_slate_monday_and_thursday (o : Optimizer) :
    Except (DfsError × Optimizer) Optimizer :=
  if (uniqueWeeks o.data).length ≠ 2 then
    .error (.valueError "DataFrame must contain two weeks in order to use Monday/Thursday slate", o)
  else
    addC o (.gameSlate .nflMondayAndThursday o.datetime_col o.week_col o.profile.num_players)

/-! ## Linear constraints over 0/1 selection variables

A PuLP `LpAffineExpression` comparison is embedded as a list of
(variable-index, coefficient) terms, a comparison sense and a rational
bound; the binary decision variable of data-frame row `i` is index `i`. -/

inductive LpSense where
  | le
  | ge
  | eq
deriving DecidableEq, Repr

structure LpConstraintRec where
  terms : List (Nat × ℚ)
  sense : LpSense
  rhs : ℚ
deriving DecidableEq, Repr

/-- Value of a term list under a 0/1 assignment of the decision variables. -/
def evalTerms (σ : Nat → Bool) (ts : List (Nat × ℚ)) : ℚ :=
  (ts.map (fun t => if σ t.1 then t.2 else 0)).sum

/-- Whether a 0/1 assignment satisfies an embedded linear constraint. -/
def satC (σ : Nat → Bool) (c : LpConstraintRec) : Bool :=
  match c.sense with
  | .le => decide (evalTerms σ c.terms ≤ c.rhs)
  | .ge => decide (c.rhs ≤ evalTerms σ c.terms)
  | .eq => decide (evalTerms σ c.terms = c.rhs)

/-- `LineupConstraint.apply` for each subclass (`src/dfs/constraints.py`):
given the modeled data frame, emit the linear expressions added to the
`LpProblem`.  Data-frame row filters such as `data[data[team_col] == team]`
become list filters over the enumerated rows; the identifier column of the
player-filter constraints is represented by the `name` field. -/
def applyC (c : LineupConstraint) (data : List Player) : List LpConstraintRec :=
  let rows := data.enum
  match c with
  | .lineupSize size =>
      [⟨rows.map (fun r => (r.1, (1 : ℚ))), .eq, (size : ℚ)⟩]
  | .maxSalaryCap s _ =>
      [⟨rows.map (fun r => (r.1, r.2.salary)), .le, s⟩]
  | .minSalaryCap s _ =>
      [⟨rows.map (fun r => (r.1, r.2.salary)), .ge, s⟩]
  | .onlyIncludeTeams teams _ =>
      [⟨(rows.filter (fun r => ¬ teams.contains r.2.team)).map (fun r => (r.1, (1 : ℚ))), .eq, 0⟩]
  | .includePlayer p _ =>
      [⟨(rows.filter (fun r => r.2.name == p)).map (fun r => (r.1, (1 : ℚ))), .ge, 1⟩]
  | .excludePlayer p _ =>
      [⟨(rows.filter (fun r => r.2.name == p)).map (fun r => (r.1, (1 : ℚ))), .eq, 0⟩]
  | .maxPlayersFromTeam m t _ =>
      [⟨(rows.filter (fun r => r.2.team == t)).map (fun r => (r.1, (1 : ℚ))), .le, (m : ℚ)⟩]
  | .minPlayersFromTeam m t _ =>
      [⟨(rows.filter (fun r => r.2.team == t)).map (fun r => (r.1, (1 : ℚ))), .ge, (m : ℚ)⟩]
  | .qbReceiverStack _ t _ pos nrec =>
      let positions := match pos with | some p => [p] | none => [WR, TE]
      let n : Int := match nrec with | none => 1 | some n => n
      [⟨(rows.filter (fun r => r.2.team == t && r.2.position == QB)).map
          (fun r => (r.1, (1 : ℚ))), .ge, 1⟩,
       ⟨(rows.filter (fun r => r.2.team == t && positions.contains r.2.position)).map
          (fun r => (r.1, (1 : ℚ))), .ge, (n : ℚ)⟩]
  | .rbDstStack t _ _ =>
      [⟨(rows.filter (fun r => r.2.team == t && r.2.position == RB)).map
          (fun r => (r.1, (1 : ℚ))), .ge, 1⟩,
       ⟨(rows.filter (fun r => r.2.team == t && r.2.position == DST)).map
          (fun r => (r.1, (1 : ℚ))), .eq, 1⟩]
  | .gameSlate slate _ _ np =>
      let weeks := uniqueWeeks data
      [⟨(rows.filter (fun r => slateFilter slate r.2 weeks)).map
          (fun r => (r.1, (1 : ℚ))), .eq, (np : ℚ)⟩]

/-- `col_contains_all_values(data, position_col, position_constraints.keys())`
(`dfs.data_frame_utils`, whose file matches `src/pygskin/data_frame_utils.py`):
every required position value occurs in the data frame's position column. -/
def col_contains_all_values (data : List Player) (values : List String) : Bool :=
  values.all (fun v => data.any (fun p => p.position == v))

structure LpModel where
  constraintsList : List LpConstraintRec
  objective : List (Nat × ℚ)
deriving DecidableEq, Repr

/-- The fixed lineup-size constraint added by `optimize_lineup`:
`LineupSizeConstraint(self.num_players()).apply(self._data)[0]`. -/
def fixedSizeConstraint (o : Optimizer) : LpConstraintRec :=
  ⟨o.data.enum.map (fun r => (r.1, (1 : ℚ))), .eq, (o.profile.num_players : ℚ)⟩

/-- The fixed salary-cap constraint added by `optimize_lineup`:
`MaxSalaryCapConstraint(self.salary_cap(), self._salary_col).apply(self._data)[0]`. -/
def fixedCapConstraint (o : Optimizer) : LpConstraintRec :=
  ⟨o.data.enum.map (fun r => (r.1, r.2.salary)), .le, o.profile.salary_cap⟩

/-- The model-building half of `LineupOptimizer.optimize_lineup`
(`src/dfs/optimize.py`, lines 530-553): check required positions, add per
-position lower and upper count bounds, the maximization objective, the
fixed lineup-size and salary-cap constraints, then every expression emitted
by every user constraint in insertion order. -/
def buildModel (o : Optimizer) : Except DfsError LpModel :=
  if ¬ col_contains_all_values o.data (o.profile.position_constraints.map Prod.fst) then
    .error (.invalidDataFrame "Data frame is missing required positions")
  else
    let rows := o.data.enum
    let posCs := o.profile.position_constraints.flatMap (fun pc =>
      let players := rows.filter (fun r => r.2.position == pc.1)
      [⟨players.map (fun r => (r.1, (1 : ℚ))), .ge, (pc.2.1 : ℚ)⟩,
       ⟨players.map (fun r => (r.1, (1 : ℚ))), .le, (pc.2.2 : ℚ)⟩])
    let objective := rows.map (fun r => (r.1, r.2.points))
    let userCs := o.constraintsList.flatMap (fun c => applyC c o.data)
    .ok ⟨posCs ++ [fixedSizeConstraint o] ++ [fixedCapConstraint o] ++ userCs, objective⟩

/-! ## Solver status (`src/dfs/pulp_utils.py`) -/

inductive LpStatusKind where
  | notSolved
  | optimal
  | infeasible
  | unbounded
  | undefined
deriving DecidableEq, Repr

/-- PuLP's `LpStatus` dict, mapping a status code to its display string. -/
def lpStatusName (s : LpStatusKind) : String :=
  match s with
  | .notSolved => "Not Solved"
  | .optimal => "Optimal"
  | .infeasible => "Infeasible"
  | .unbounded => "Unbounded"
  | .undefined => "Undefined"

/-- `is_optimal_solution_found` (`src/dfs/pulp_utils.py`, lines 12-15):
`LpStatus[problem.status] == 'Optimal'`. -/
def is_optimal_solution_found (status : LpStatusKind) : Bool :=
  lpStatusName status == "Optimal"

/-! ## Lineup reconstruction (`OptimizedLineup` and `LineupPlayer`,
`src/dfs/optimize.py`, lines 20-163)

A `LineupPlayer` keeps the data-frame row index `idx` as its identity
(Python relies on object identity when the flex loop mutates a player that
is also held by `self.players`). -/

structure LineupPlayer where
  idx : Nat
  name : String
  position : String
  lineup_position : String
  team : String
  opponent : String
  points : ℚ
  salary : ℚ
  datetime : Dt
  is_home : Bool
deriving DecidableEq, Repr

/-- `LineupPlayer.__init__`: `lineup_position` starts equal to `position`. -/
def mkLineupPlayer (i : Nat) (p : Player) : LineupPlayer :=
  { idx := i, name := p.name, position := p.position, lineup_position := p.position,
    team := p.team, opponent := p.opponent, points := p.points, salary := p.salary,
    datetime := p.datetime, is_home := p.is_home }

/-- `position_to_count[position]`: the number of selected players at a
position.  (The Python dict raises `KeyError` for a position with no
selected player; the engine only reaches the lookup for `RB`, `WR`, `TE`,
whose site-profile minimums keep at least one selected player each.) -/
def countPosition (players : List LineupPlayer) (pos : String) : Nat :=
  (players.filter (fun q => q.position == pos)).length

/-- Stable insertion used to embed Python's stable `sorted`: the new element
goes after every element whose key is less than or equal to its own. -/
def insertStable (le : LineupPlayer → LineupPlayer → Bool) (x : LineupPlayer) :
    List LineupPlayer → List LineupPlayer
  | [] => [x]
  | y :: ys => if le y x then y :: insertStable le x ys else x :: y :: ys

/-- Stable sort by a boolean `≤` key comparison, embedding Python `sorted`. -/
def sortStable (le : LineupPlayer → LineupPlayer → Bool) (l : List LineupPlayer) :
    List LineupPlayer :=
  l.foldl (fun acc x => insertStable le x acc) []

/-- Comparison key of `sorted(..., key=lambda x: x.datetime)`. -/
def datetimeLe (a b : LineupPlayer) : Bool :=
  decide (a.datetime.ts ≤ b.datetime.ts)

/-- Flex-slot resolution (`OptimizedLineup.__init__`, `src/dfs/optimize.py`,
lines 63-70): walk `RB`, `WR`, `TE` in order; at the first position whose
selected count equals the site profile's configured maximum for it, sort
that position's players by game datetime, relabel the last one's
`lineup_position` to `FLEX` and stop. -/
def flexResolve (pc : String → Int × Int) (players : List LineupPlayer) :
    List LineupPlayer :=
  match [RB, WR, TE].find? (fun pos => (countPosition players pos : Int) == (pc pos).2) with
  | none => players
  | some pos =>
    let sorted := sortStable datetimeLe (players.filter (fun q => q.position == pos))
    match sorted.getLast? with
    | none => players
    | some x =>
        players.map (fun q =>
          if q.idx == x.idx then { q with lineup_position := FLEX } else q)

/-- Modelled from the spec: `ORDER_DICT` lives in the absent module
`dfs/nfl/positions.py`; the spec says only that final player ordering
follows a fixed slot-priority ordering, so any fixed injective priority
map over the slot labels represents it. -/
def ORDER_DICT (slot : String) : Int :=
  if slot == QB then 0
  else if slot == RB then 1
  else if slot == WR then 2
  else if slot == TE then 3
  else if slot == FLEX then 4
  else 5

/-- Comparison key of `sorted(..., key=lambda x: player_order_dict()[x.lineup_position])`. -/
def orderLe (a b : LineupPlayer) : Bool :=
  decide (ORDER_DICT a.lineup_position ≤ ORDER_DICT b.lineup_position)

/-- Python `round(x, 2)` over the embedded rationals (round half to even). -/
def roundHalfEven2 (q : ℚ) : ℚ :=
  let y := q * 100
  let fl := ⌊y⌋
  let fr := y - fl
  let n := if fr < 1 / 2 then fl
           else if 1 / 2 < fr then fl + 1
           else if fl % 2 = 0 then fl else fl + 1
  (n : ℚ) / 100

structure OptimizedLineup where
  site : String
  points : ℚ
  salary : ℚ
  salary_cap : ℚ
  players : List LineupPlayer
deriving DecidableEq, Repr

/-- The rows of the data frame whose decision variable is assigned `1`:
`optimizer.data[optimizer.data.apply(lambda x: x['LpVariable'].varValue == 1)]`,
carried with their row indices. -/
def selectedRows (σ : Nat → Bool) (data : List Player) : List (Nat × Player) :=
  data.enum.filter (fun r => σ r.1)

/-- The selected player records themselves. -/
def selectedPlayers (σ : Nat → Bool) (data : List Player) : List Player :=
  (selectedRows σ data).map Prod.snd

/-- `OptimizedLineup.__init__` (`src/dfs/optimize.py`, lines 25-71): select
the rows assigned `1`, total their points (rounded to two decimals) and
salary, build `LineupPlayer`s, run flex-slot resolution, and sort for
presentation by slot priority. -/
def reconstructLineup (o : Optimizer) (σ : Nat → Bool) : OptimizedLineup :=
  let sel := selectedRows σ o.data
  let players0 := sel.map (fun r => mkLineupPlayer r.1 r.2)
  let players1 := flexResolve (positionBounds o.profile) players0
  { site := o.profile.site_name,
    points := roundHalfEven2 ((sel.map (fun r => r.2.points)).sum),
    salary := (sel.map (fun r => r.2.salary)).sum,
    salary_cap := o.profile.salary_cap,
    players := sortStable orderLe players1 }

/-- `LineupOptimizer.optimize_lineup` (`src/dfs/optimize.py`, lines 530-557)
with the black-box CBC solver abstracted as a function from the built model
to a status and a 0/1 assignment: build the model, solve once, raise
`UnsolvableLineupException` unless the status is optimal, otherwise
reconstruct the lineup. -/
def optimize_lineup (o : Optimizer) (solver : LpModel → LpStatusKind × (Nat → Bool)) :
    Except DfsError OptimizedLineup :=
  match buildModel o with
  | .error e => .error e
  | .ok m =>
    let res := solver m
    if ¬ is_optimal_solution_found res.1 then
      .error (.unsolvableLineup "No optimal solution found under current lineup constraints")
    else
      .ok (reconstructLineup o res.2)

/-! ## Lineup serialization (`OptimizedLineup.write_to_file` and
`LineupPlayer.__dir__`, `src/dfs/optimize.py`, lines 73-91 and 156-157) -/

/-- The list returned by `LineupPlayer.__dir__`. -/
def lineupPlayerDirList : List String :=
  ["name", "position", "team", "opponent", "points", "salary", "datetime"]

/-- The built-in `dir()` sorts the `__dir__` result alphabetically; this is
that sorted list — the field-name list `write_to_file` hands to
`csv.DictWriter` and uses for every row.  That it is indeed the ordered
permutation of `lineupPlayerDirList` is proved in
`lineupPlayerDir_is_sorted_dir`. -/
def lineupPlayerDir : List String :=
  ["datetime", "name", "opponent", "points", "position", "salary", "team"]

/-- Strict lexicographic comparison of character lists, used to state that
`lineupPlayerDir` is alphabetically ordered. -/
def charListLtB : List Char → List Char → Bool
  | [], [] => false
  | [], _ :: _ => true
  | _ :: _, [] => false
  | a :: as, b :: bs => if a < b then true else if b < a then false else charListLtB as bs

/-- A CSV cell value produced by `getattr(player, k)`. -/
inductive CsvCell where
  | ofStr (v : String)
  | ofRat (v : ℚ)
  | ofDt (v : Dt)
deriving DecidableEq, Repr

/-- `getattr(player, k)` for the attribute names reachable from
`write_to_file`; `none` embeds Python's `AttributeError` for any other
name. -/
def getattrLineupPlayer (p : LineupPlayer) (k : String) : Option CsvCell :=
  if k == "name" then some (.ofStr p.name)
  else if k == "position" then some (.ofStr p.position)
  else if k == "lineup_position" then some (.ofStr p.lineup_position)
  else if k == "team" then some (.ofStr p.team)
  else if k == "opponent" then some (.ofStr p.opponent)
  else if k == "points" then some (.ofRat p.points)
  else if k == "salary" then some (.ofRat p.salary)
  else if k == "datetime" then some (.ofDt p.datetime)
  else none

/-- The dict written for one player:
`{k: player.__getattribute__(k) for k in dir(player)}`. -/
def writeRow (p : LineupPlayer) : List (String × Option CsvCell) :=
  lineupPlayerDir.map (fun k => (k, getattrLineupPlayer p k))

/-- The rows `write_to_file` appends to the CSV file (the file-system side
of the method is not modeled; the claim-relevant content is the field set
of each written row). -/
def writeRows (lineup : OptimizedLineup) : List (List (String × Option CsvCell)) :=
  lineup.players.map writeRow

/-! ## Data cleaning in `LineupOptimizer.__init__`
(`src/dfs/optimize.py`, lines 240-242)

A raw data-frame row before cleaning: every cell may be missing (pandas
`NaN`, embedded as `none`). -/

structure RawRow where
  name : Option String
  position : Option String
  year : Option Int
  week : Option Int
  points : Option ℚ
  salary : Option ℚ
  team : Option String
  opponent : Option String
  datetime : Option Dt
  is_home : Option Bool
deriving DecidableEq, Repr

/-- Whether a row has a missing value in any column — what
`DataFrame.dropna()` tests. -/
def rowComplete (r : RawRow) : Bool :=
  r.name.isSome && r.position.isSome && r.year.isSome && r.week.isSome &&
  r.points.isSome && r.salary.isSome && r.team.isSome && r.opponent.isSome &&
  r.datetime.isSome && r.is_home.isSome

/-- Position normalization applied to the position column
(`self._data[position_col].apply(lambda x: normalize_position(x))`).
An unrecognized position becomes `none`, i.e. `NaN`. -/
def normalizeRow (r : RawRow) : RawRow :=
  { r with position := normalize_position r.position }

/-- The cleaning steps of `LineupOptimizer.__init__`: normalize the position
column, `dropna` (drop rows missing a value in any column), then keep only
rows with `salary > 0`. -/
def prepareData (rows : List RawRow) : List RawRow :=
  (((rows.map normalizeRow).filter (fun r => rowComplete r)).filter
    (fun r => match r.salary with
      | some s => decide (0 < s)
      | none => false))

/-! ## Concrete fixtures

Small concrete rosters, profiles and optimizer states used to evaluate the
embedded operations at specific inputs. -/

/-- A quarterback row. -/
def pQB : Player :=
  { name := "q", position := "QB", year := 2020, week := 1, points := 10, salary := 50,
    team := "A", opponent := "B", datetime := ⟨0, 6, 13⟩, is_home := true }

/-- A second roster row on team `B`. -/
def pB : Player :=
  { name := "b", position := "RB", year := 2020, week := 1, points := 7, salary := 40,
    team := "B", opponent := "A", datetime := ⟨5, 6, 13⟩, is_home := false }

/-- A one-position site profile with roster size 1 and cap 100. -/
def wProfile : SiteProfile :=
  { num_players := 1, salary_cap := 100, site_name := "X",
    position_constraints := [("QB", 1, 1)] }

/-- A one-player optimizer over `wProfile` with no user constraints. -/
def wOpt : Optimizer := { profile := wProfile, data := [pQB] }

/-- The model `buildModel` produces for `wOpt`. -/
def wModel : LpModel :=
  { constraintsList :=
      [⟨[(0, 1)], .ge, 1⟩, ⟨[(0, 1)], .le, 1⟩, ⟨[(0, 1)], .eq, 1⟩, ⟨[(0, 50)], .le, 100⟩],
    objective := [(0, 10)] }

/-- A solver stub that reports an infeasible model. -/
def wSolverInfeasible : LpModel → LpStatusKind × (Nat → Bool) :=
  fun _ => (.infeasible, fun _ => false)

/-- A nine-player-profile optimizer over teams `A` and `B` whose constraint
set already holds a max-players constraint for team `B`. -/
def oC3 : Optimizer :=
  { profile := { num_players := 9, salary_cap := 50000, site_name := "X",
                 position_constraints := [("QB", 1, 1)] },
    data := [pQB, pB],
    constraintsList := [.maxPlayersFromTeam 2 "B" "team"] }

/-- Like `oC3` but with an existing min-players constraint for team `B`. -/
def oSnp : Optimizer :=
  { profile := { num_players := 9, salary_cap := 50000, site_name := "X",
                 position_constraints := [("QB", 1, 1)] },
    data := [pQB, pB],
    constraintsList := [.minPlayersFromTeam 1 "B" "team"] }

/-- A raw row that is complete and has positive salary and present points but
a missing team cell. -/
def badTeamRow : RawRow :=
  { name := some "Aaron", position := some "QB", year := some 2020, week := some 1,
    points := some 10, salary := some 5000, team := none, opponent := some "CHI",
    datetime := some ⟨0, 6, 13⟩, is_home := some true }

/-- A three-position site profile whose `RB` maximum is met by one selected
running back. -/
def wFlexProfile : SiteProfile :=
  { num_players := 3, salary_cap := 100, site_name := "X",
    position_constraints := [(RB, 1, 1), (WR, 0, 2), (TE, 0, 2)] }

/-- A selected running back. -/
def wRB : LineupPlayer :=
  { idx := 0, name := "r", position := RB, lineup_position := RB, team := "A",
    opponent := "B", points := 5, salary := 10, datetime := ⟨10, 6, 13⟩, is_home := true }

/-- A selected wide receiver. -/
def wWR : LineupPlayer :=
  { idx := 1, name := "w", position := WR, lineup_position := WR, team := "A",
    opponent := "B", points := 6, salary := 11, datetime := ⟨20, 6, 13⟩, is_home := true }

/-- A selected tight end. -/
def wTE : LineupPlayer :=
  { idx := 2, name := "t", position := TE, lineup_position := TE, team := "B",
    opponent := "A", points := 7, salary := 12, datetime := ⟨30, 6, 13⟩, is_home := false }

/-- A small selected-player list with distinct indices and datetimes. -/
def wFlexPlayers : List LineupPlayer := [wRB, wWR, wTE]

/-- A one-player optimized lineup. -/
def wLineup : OptimizedLineup :=
  { site := "X", points := 10, salary := 50, salary_cap := 100,
    players := [mkLineupPlayer 0 pQB] }

/-! ## Shared lemmas about constraint addition -/

/-- `_add_constraint` raises exactly when `is_valid` returns `False`. -/
theorem add_constraint_error_iff (cs : List LineupConstraint) (c : LineupConstraint) :
    (∃ e, add_constraint cs c = .error e) ↔ (is_valid c cs).1 = false := by
  unfold add_constraint
  rcases h : is_valid c cs with ⟨b, m⟩
  cases b <;> simp

/-- `_add_constraint` appends the candidate when `is_valid` accepts it. -/
theorem add_constraint_ok (cs : List LineupConstraint) (c : LineupConstraint)
    (h : (is_valid c cs).1 = true) : add_constraint cs c = .ok (cs ++ [c]) := by
  unfold add_constraint
  rcases hv : is_valid c cs with ⟨b, m⟩
  rw [hv] at h
  cases b
  · simp at h
  · rfl

/-- Characterization of the `MinPlayersFromTeamConstraint.is_valid` loop. -/
theorem minPlayersFromTeam_valid_false_iff (n : Int) (t : String) :
    ∀ cs : List LineupConstraint,
      (IsValid.minPlayersFromTeam n t cs).1 = false ↔
        (∃ m tc, LineupConstraint.minPlayersFromTeam m t tc ∈ cs) ∨
        ∃ m tc, LineupConstraint.maxPlayersFromTeam m t tc ∈ cs ∧ m < n
  | [] => by simp [IsValid.minPlayersFromTeam]
  | c :: rest => by
    have ih := minPlayersFromTeam_valid_false_iff n t rest
    cases c with
    | minPlayersFromTeam m₀ t₀ tc₀ =>
      by_cases ht : t₀ = t
      · subst ht
        simp [IsValid.minPlayersFromTeam]
        exact Or.inl ⟨m₀, tc₀, Or.inl ⟨rfl, rfl⟩⟩
      · simp [IsValid.minPlayersFromTeam, ht, ih, Ne.symm ht]
    | maxPlayersFromTeam m₀ t₀ tc₀ =>
      by_cases ht : t₀ = t
      · subst ht
        by_cases hm : m₀ < n
        · simp [IsValid.minPlayersFromTeam, hm]
          exact Or.inr ⟨m₀, ⟨tc₀, Or.inl ⟨rfl, rfl⟩⟩, hm⟩
        · simp [IsValid.minPlayersFromTeam, hm, ih]
          constructor
          · rintro (h | ⟨m, ⟨x, hx⟩, hmn⟩)
            · exact Or.inl h
            · exact Or.inr ⟨m, ⟨x, Or.inr hx⟩, hmn⟩
          · rintro (h | ⟨m, ⟨x, (⟨rfl, rfl⟩ | hx)⟩, hmn⟩)
            · exact Or.inl h
            · exact absurd hmn hm
            · exact Or.inr ⟨m, ⟨x, hx⟩, hmn⟩
      · simp [IsValid.minPlayersFromTeam, ht, ih, Ne.symm ht]
    | lineupSize s => simp [IsValid.minPlayersFromTeam, ih]
    | maxSalaryCap s sc => simp [IsValid.minPlayersFromTeam, ih]
    | minSalaryCap s sc => simp [IsValid.minPlayersFromTeam, ih]
    | onlyIncludeTeams ts tc => simp [IsValid.minPlayersFromTeam, ih]
    | includePlayer p nc => simp [IsValid.minPlayersFromTeam, ih]
    | excludePlayer p nc => simp [IsValid.minPlayersFromTeam, ih]
    | qbReceiverStack pc tm tc pos nr => simp [IsValid.minPlayersFromTeam, ih]
    | rbDstStack tm tc pc => simp [IsValid.minPlayersFromTeam, ih]
    | gameSlate sl dc wc np => simp [IsValid.minPlayersFromTeam, ih]

/-- Characterization of the `MaxPlayersFromTeamConstraint.is_valid` loop. -/
theorem maxPlayersFromTeam_valid_false_iff (n : Int) (t : String) :
    ∀ cs : List LineupConstraint,
      (IsValid.maxPlayersFromTeam n t cs).1 = false ↔
        (∃ m tc, LineupConstraint.maxPlayersFromTeam m t tc ∈ cs) ∨
        ∃ m tc, LineupConstraint.minPlayersFromTeam m t tc ∈ cs ∧ n < m
  | [] => by simp [IsValid.maxPlayersFromTeam]
  | c :: rest => by
    have ih := maxPlayersFromTeam_valid_false_iff n t rest
    cases c with
    | maxPlayersFromTeam m₀ t₀ tc₀ =>
      by_cases ht : t₀ = t
      · subst ht
        simp [IsValid.maxPlayersFromTeam]
        exact Or.inl ⟨m₀, tc₀, Or.inl ⟨rfl, rfl⟩⟩
      · simp [IsValid.maxPlayersFromTeam, ht, ih, Ne.symm ht]
    | minPlayersFromTeam m₀ t₀ tc₀ =>
      by_cases ht : t₀ = t
      · subst ht
        by_cases hm : n < m₀
        · simp [IsValid.maxPlayersFromTeam, hm]
          exact Or.inr ⟨m₀, ⟨tc₀, Or.inl ⟨rfl, rfl⟩⟩, hm⟩
        · simp [IsValid.maxPlayersFromTeam, hm, ih]
          constructor
          · rintro (h | ⟨m, ⟨x, hx⟩, hmn⟩)
            · exact Or.inl h
            · exact Or.inr ⟨m, ⟨x, Or.inr hx⟩, hmn⟩
          · rintro (h | ⟨m, ⟨x, (⟨rfl, rfl⟩ | hx)⟩, hmn⟩)
            · exact Or.inl h
            · exact absurd hmn hm
            · exact Or.inr ⟨m, ⟨x, hx⟩, hmn⟩
      · simp [IsValid.maxPlayersFromTeam, ht, ih, Ne.symm ht]
    | lineupSize s => simp [IsValid.maxPlayersFromTeam, ih]
    | maxSalaryCap s sc => simp [IsValid.maxPlayersFromTeam, ih]
    | minSalaryCap s sc => simp [IsValid.maxPlayersFromTeam, ih]
    | onlyIncludeTeams ts tc => simp [IsValid.maxPlayersFromTeam, ih]
    | includePlayer p nc => simp [IsValid.maxPlayersFromTeam, ih]
    | excludePlayer p nc => simp [IsValid.maxPlayersFromTeam, ih]
    | qbReceiverStack pc tm tc pos nr => simp [IsValid.maxPlayersFromTeam, ih]
    | rbDstStack tm tc pc => simp [IsValid.maxPlayersFromTeam, ih]
    | gameSlate sl dc wc np => simp [IsValid.maxPlayersFromTeam, ih]

/-- C4: adding a min-players-from-team constraint for team `t` raises exactly
when the set already holds a min-players constraint for `t` or a max-players
constraint for `t` with maximum strictly below the candidate's minimum;
symmetrically, a max-players constraint for `t` raises exactly when the set
already holds a max-players constraint for `t` or a min-players constraint
for `t` with minimum strictly above the candidate's maximum; otherwise the
candidate is appended to the set. -/
theorem C4_team_filter_validation (cs : List LineupConstraint) (n : Int) (t : String)
    (tcol : String) :
    ((∃ e, add_constraint cs (.minPlayersFromTeam n t tcol) = .error e) ↔
      (∃ m tc, LineupConstraint.minPlayersFromTeam m t tc ∈ cs) ∨
      ∃ m tc, LineupConstraint.maxPlayersFromTeam m t tc ∈ cs ∧ m < n) ∧
    ((∃ e, add_constraint cs (.maxPlayersFromTeam n t tcol) = .error e) ↔
      (∃ m tc, LineupConstraint.maxPlayersFromTeam m t tc ∈ cs) ∨
      ∃ m tc, LineupConstraint.minPlayersFromTeam m t tc ∈ cs ∧ n < m) ∧
    (¬ ((∃ m tc, LineupConstraint.minPlayersFromTeam m t tc ∈ cs) ∨
        ∃ m tc, LineupConstraint.maxPlayersFromTeam m t tc ∈ cs ∧ m < n) →
      add_constraint cs (.minPlayersFromTeam n t tcol) =
        .ok (cs ++ [.minPlayersFromTeam n t tcol])) ∧
    (¬ ((∃ m tc, LineupConstraint.maxPlayersFromTeam m t tc ∈ cs) ∨
        ∃ m tc, LineupConstraint.minPlayersFromTeam m t tc ∈ cs ∧ n < m) →
      add_constraint cs (.maxPlayersFromTeam n t tcol) =
        .ok (cs ++ [.maxPlayersFromTeam n t tcol])) := by
  have hmin : (is_valid (.minPlayersFromTeam n t tcol) cs).1 =
      (IsValid.minPlayersFromTeam n t cs).1 := rfl
  have hmax : (is_valid (.maxPlayersFromTeam n t tcol) cs).1 =
      (IsValid.maxPlayersFromTeam n t cs).1 := rfl
  refine ⟨?_, ?_, ?_, ?_⟩
  · rw [add_constraint_error_iff, hmin, minPlayersFromTeam_valid_false_iff]
  · rw [add_constraint_error_iff, hmax, maxPlayersFromTeam_valid_false_iff]
  · intro h
    refine add_constraint_ok _ _ ?_
    rw [hmin]
    rcases hb : (IsValid.minPlayersFromTeam n t cs).1 with _ | _
    · exact absurd ((minPlayersFromTeam_valid_false_iff n t cs).mp hb) h
    · rfl
  · intro h
    refine add_constraint_ok _ _ ?_
    rw [hmax]
    rcases hb : (IsValid.maxPlayersFromTeam n t cs).1 with _ | _
    · exact absurd ((maxPlayersFromTeam_valid_false_iff n t cs).mp hb) h
    · rfl

/-- Characterization of the `MaxSalaryCapConstraint.is_valid` loop. -/
theorem maxSalaryCap_valid_false_iff (v : ℚ) :
    ∀ cs : List LineupConstraint,
      (IsValid.maxSalaryCap v cs).1 = false ↔
        ∃ s sc, LineupConstraint.minSalaryCap s sc ∈ cs ∧ v < s
  | [] => by simp [IsValid.maxSalaryCap]
  | c :: rest => by
    have ih := maxSalaryCap_valid_false_iff v rest
    cases c with
    | minSalaryCap s₀ sc₀ =>
      by_cases hs : v < s₀
      · simp [IsValid.maxSalaryCap, hs]
        exact ⟨s₀, ⟨sc₀, Or.inl ⟨rfl, rfl⟩⟩, hs⟩
      · simp [IsValid.maxSalaryCap, hs, ih]
        constructor
        · rintro ⟨s, ⟨x, hx⟩, hvs⟩
          exact ⟨s, ⟨x, Or.inr hx⟩, hvs⟩
        · rintro ⟨s, ⟨x, (⟨rfl, rfl⟩ | hx)⟩, hvs⟩
          · exact absurd hvs hs
          · exact ⟨s, ⟨x, hx⟩, hvs⟩
    | lineupSize s => simp [IsValid.maxSalaryCap, ih]
    | maxSalaryCap s sc => simp [IsValid.maxSalaryCap, ih]
    | onlyIncludeTeams ts tc => simp [IsValid.maxSalaryCap, ih]
    | includePlayer p nc => simp [IsValid.maxSalaryCap, ih]
    | excludePlayer p nc => simp [IsValid.maxSalaryCap, ih]
    | maxPlayersFromTeam m tm tc => simp [IsValid.maxSalaryCap, ih]
    | minPlayersFromTeam m tm tc => simp [IsValid.maxSalaryCap, ih]
    | qbReceiverStack pc tm tc pos nr => simp [IsValid.maxSalaryCap, ih]
    | rbDstStack tm tc pc => simp [IsValid.maxSalaryCap, ih]
    | gameSlate sl dc wc np => simp [IsValid.maxSalaryCap, ih]

/-- Characterization of the `MinSalaryCapConstraint.is_valid` loop. -/
theorem minSalaryCap_valid_false_iff (v : ℚ) :
    ∀ cs : List LineupConstraint,
      (IsValid.minSalaryCap v cs).1 = false ↔
        ∃ s sc, LineupConstraint.maxSalaryCap s sc ∈ cs ∧ s < v
  | [] => by simp [IsValid.minSalaryCap]
  | c :: rest => by
    have ih := minSalaryCap_valid_false_iff v rest
    cases c with
    | maxSalaryCap s₀ sc₀ =>
      by_cases hs : s₀ < v
      · simp [IsValid.minSalaryCap, hs]
        exact ⟨s₀, ⟨sc₀, Or.inl ⟨rfl, rfl⟩⟩, hs⟩
      · simp [IsValid.minSalaryCap, hs, ih]
        constructor
        · rintro ⟨s, ⟨x, hx⟩, hvs⟩
          exact ⟨s, ⟨x, Or.inr hx⟩, hvs⟩
        · rintro ⟨s, ⟨x, (⟨rfl, rfl⟩ | hx)⟩, hvs⟩
          · exact absurd hvs hs
          · exact ⟨s, ⟨x, hx⟩, hvs⟩
    | lineupSize s => simp [IsValid.minSalaryCap, ih]
    | minSalaryCap s sc => simp [IsValid.minSalaryCap, ih]
    | onlyIncludeTeams ts tc => simp [IsValid.minSalaryCap, ih]
    | includePlayer p nc => simp [IsValid.minSalaryCap, ih]
    | excludePlayer p nc => simp [IsValid.minSalaryCap, ih]
    | maxPlayersFromTeam m tm tc => simp [IsValid.minSalaryCap, ih]
    | minPlayersFromTeam m tm tc => simp [IsValid.minSalaryCap, ih]
    | qbReceiverStack pc tm tc pos nr => simp [IsValid.minSalaryCap, ih]
    | rbDstStack tm tc pc => simp [IsValid.minSalaryCap, ih]
    | gameSlate sl dc wc np => simp [IsValid.minSalaryCap, ih]

/-- C5: adding a max salary cap of `v` raises exactly when an existing min
salary cap has a bound strictly greater than `v`; adding a min salary cap of
`v` raises exactly when an existing max salary cap has a bound strictly less
than `v`; against no opposing bound the cap constraint is appended. -/
theorem C5_salary_cap_validation (cs : List LineupConstraint) (v : ℚ) (scol : String) :
    ((∃ e, add_constraint cs (.maxSalaryCap v scol) = .error e) ↔
      ∃ s sc, LineupConstraint.minSalaryCap s sc ∈ cs ∧ v < s) ∧
    ((∃ e, add_constraint cs (.minSalaryCap v scol) = .error e) ↔
      ∃ s sc, LineupConstraint.maxSalaryCap s sc ∈ cs ∧ s < v) ∧
    ((¬ ∃ s sc, LineupConstraint.minSalaryCap s sc ∈ cs ∧ v < s) →
      add_constraint cs (.maxSalaryCap v scol) = .ok (cs ++ [.maxSalaryCap v scol])) ∧
    ((¬ ∃ s sc, LineupConstraint.maxSalaryCap s sc ∈ cs ∧ s < v) →
      add_constraint cs (.minSalaryCap v scol) = .ok (cs ++ [.minSalaryCap v scol])) := by
  have hmax : (is_valid (.maxSalaryCap v scol) cs).1 = (IsValid.maxSalaryCap v cs).1 := rfl
  have hmin : (is_valid (.minSalaryCap v scol) cs).1 = (IsValid.minSalaryCap v cs).1 := rfl
  refine ⟨?_, ?_, ?_, ?_⟩
  · rw [add_constraint_error_iff, hmax, maxSalaryCap_valid_false_iff]
  · rw [add_constraint_error_iff, hmin, minSalaryCap_valid_false_iff]
  · intro h
    refine add_constraint_ok _ _ ?_
    rw [hmax]
    rcases hb : (IsValid.maxSalaryCap v cs).1 with _ | _
    · exact absurd ((maxSalaryCap_valid_false_iff v cs).mp hb) h
    · rfl
  · intro h
    refine add_constraint_ok _ _ ?_
    rw [hmin]
    rcases hb : (IsValid.minSalaryCap v cs).1 with _ | _
    · exact absurd ((minSalaryCap_valid_false_iff v cs).mp hb) h
    · rfl

/-- C6: the cross-week Monday-and-Thursday slate predicate.  The Monday arm
of `NflMondayAndThursdayGameSlate.filter_function` compares the *uncalled*
`weekday` method with `0` and is therefore `False` for every row, so over a
two-week roster the predicate holds exactly for Thursday games of the
second week — never for Monday games of the first week. -/
theorem C6_monday_arm_dead (p : Player) (w1 w2 : Int) :
    slateFilter .nflMondayAndThursday p [w1, w2] =
      (p.week == w2 && p.datetime.weekday == 3) := by
  simp [slateFilter, weekday_method_eq_zero]

/-- C9: over a site profile with a nonnegative roster size,
`set_min_players_from_team` with `n = 0` for a team present in the data
returns without error and leaves the whole optimizer state — in particular
the constraint set — unchanged. -/
theorem C9_min_zero_noop (o : Optimizer) (t : String)
    (hteam : teamInData o t = true) (hnp : 0 ≤ o.profile.num_players) :
    set_min_players_from_team o (some 0) (some t) = .ok o := by
  unfold set_min_players_from_team
  have h0 : ¬ ((0 : Int) > o.profile.num_players) := by omega
  simp [h0, hteam]

/-- `lineupPlayerDir` is the alphabetically sorted permutation of the list
returned by `LineupPlayer.__dir__`, matching the behavior of the `dir()`
built-in (`charListLtB` is strict lexicographic comparison of the
character sequences). -/
theorem lineupPlayerDir_is_sorted_dir :
    lineupPlayerDir.Perm lineupPlayerDirList ∧
    List.Pairwise (fun a b : String => charListLtB a.toList b.toList = true) lineupPlayerDir := by
  constructor
  · decide
  · decide

/-- C10: every row serialized by `write_to_file` carries exactly the
fields `name`, `position`, `team`, `opponent`, `points`, `salary` and
`datetime` (in the alphabetical order imposed by `dir()`), each with a
value; the `lineup_position` slot label is never among the written
fields. -/
theorem C10_written_fields (lineup : OptimizedLineup)
    (row : List (String × Option CsvCell)) (hrow : row ∈ writeRows lineup) :
    row.map Prod.fst = ["datetime", "name", "opponent", "points", "position", "salary", "team"] ∧
    (row.map Prod.fst).Perm lineupPlayerDirList ∧
    "lineup_position" ∉ row.map Prod.fst ∧
    ∀ kv ∈ row, (kv.2).isSome = true := by
  rcases List.mem_map.mp hrow with ⟨p, _hp, hpr⟩
  subst hpr
  have hkeys : (writeRow p).map Prod.fst = lineupPlayerDir := rfl
  refine ⟨hkeys, ?_, ?_, ?_⟩
  · rw [hkeys]
    decide
  · rw [hkeys]
    decide
  · intro kv hkv
    simp only [writeRow, List.mem_map] at hkv
    rcases hkv with ⟨k, hk, hkkv⟩
    subst hkkv
    fin_cases hk <;> simp [getattrLineupPlayer]

/-- A failed `_add_constraint` leaves the constraint list untouched. -/
theorem add_constraint_error_state (cs : List LineupConstraint) (c : LineupConstraint)
    (e : DfsError) (s' : List LineupConstraint)
    (h : add_constraint cs c = .error (e, s')) : s' = cs := by
  unfold add_constraint at h
  rcases hv : is_valid c cs with ⟨b, m⟩
  rw [hv] at h
  cases b
  · simp at h
    exact h.2.symm
  · simp at h

/-- A failed `addC` leaves the whole optimizer state untouched. -/
theorem addC_error_state (o : Optimizer) (c : LineupConstraint) (e : DfsError) (o' : Optimizer)
    (h : addC o c = .error (e, o')) : o' = o := by
  unfold addC at h
  rcases hac : add_constraint o.constraintsList c with ⟨e1, cs⟩ | cs
  · rw [hac] at h
    simp at h
    have hcs : cs = o.constraintsList := add_constraint_error_state _ _ _ _ hac
    rw [← h.2, hcs]
  · rw [hac] at h
    simp at h

/-- A successful `addC` appends the candidate constraint. -/
theorem addC_ok_state (o : Optimizer) (c : LineupConstraint) (o' : Optimizer)
    (h : addC o c = .ok o') : o' = { o with constraintsList := o.constraintsList ++ [c] } := by
  unfold addC at h
  rcases hac : add_constraint o.constraintsList c with ⟨e1, cs⟩ | cs
  · rw [hac] at h
    simp at h
  · rw [hac] at h
    simp at h
    unfold add_constraint at hac
    rcases hv : is_valid c o.constraintsList with ⟨b, m⟩
    rw [hv] at hac
    cases b
    · simp at hac
    · simp at hac
      rw [← h, hac]

/-- C3 counterexample: `set_exclude_teams` does not roll back partial
additions.  With a max-players constraint for team `B` already present,
excluding `["A", "B"]` fails on `B` but leaves the max-0 constraint added
for `A` in the set, so the state after the failed compound call differs
from the state before it. -/
theorem C3_counterexample_exclude_teams_no_rollback :
    set_exclude_teams oC3 (some ["A", "B"]) =
      .error (.invalidConstraint "Invalid constraint: Max players from this team already set",
        { oC3 with constraintsList :=
            [.maxPlayersFromTeam 2 "B" "team", .maxPlayersFromTeam 0 "A" "team"] }) ∧
    ({ oC3 with constraintsList :=
        [.maxPlayersFromTeam 2 "B" "team", .maxPlayersFromTeam 0 "A" "team"] } : Optimizer) ≠ oC3 := by
  constructor
  · rfl
  · decide

/-- C3 (amended): every rejected single constraint addition leaves the
constraint set exactly as before the call, and the exact-team-count
compound (`set_num_players_from_team`, which adds a max-n then a min-n)
rolls back its partial addition when the second addition is rejected —
while `set_exclude_teams` (shown by the counterexample) aborts without
rolling back. -/
theorem C3_amended_rejection_rollback :
    (∀ (cs : List LineupConstraint) (c : LineupConstraint) (e : DfsError)
        (s' : List LineupConstraint),
      add_constraint cs c = .error (e, s') → s' = cs) ∧
    (∀ (o : Optimizer) (n : Option Int) (t : Option String) (e : DfsError) (o' : Optimizer),
      set_num_players_from_team o n t = .error (e, o') →
        o'.constraintsList = o.constraintsList) := by
  constructor
  · exact add_constraint_error_state
  · intro o n t e o' h
    unfold set_num_players_from_team at h
    split at h
    · simp at h
      rw [← h.2]
    · split at h
      · simp at h
        rw [← h.2]
      · split at h
        · simp at h
          rw [← h.2]
        · split at h
          · simp at h
            rw [← h.2]
          · split at h
            next x heq =>
              rcases x with ⟨e1, o1⟩
              simp at h
              rw [← h.2, addC_error_state _ _ _ _ heq]
            next o1 heq =>
              split at h
              · simp at h
              next e2 o2 heq2 =>
                simp at h
                rw [← h.2]
                have ho2 : o2 = o1 := addC_error_state _ _ _ _ heq2
                have ho1 := addC_ok_state _ _ _ heq
                rw [ho2, ho1]
                simp

/-- C2 counterexample: a record whose salary is present and positive and
whose points value is present is nevertheless removed before modeling,
because its team cell is missing and `dropna` drops rows with a missing
value in *any* column. -/
theorem C2_counterexample_complete_salary_points_dropped :
    prepareData [badTeamRow] = [] ∧
    badTeamRow.salary = some 5000 ∧ ((0 : ℚ) < 5000) ∧ badTeamRow.points = some 10 := by
  refine ⟨rfl, rfl, by norm_num, rfl⟩

/-- C2 (amended): the records retained for modeling are exactly the
position-normalized rows that have a value in every column (name,
normalized position, year, week, points, salary, team, opponent, datetime,
home flag) and a strictly positive salary; equivalently, a record is
removed exactly when any column is missing (including a position that
fails to normalize) or its salary is non-positive. -/
theorem C2_amended_retained_iff (rows : List RawRow) (r : RawRow) :
    r ∈ prepareData rows ↔
      r ∈ rows.map normalizeRow ∧ rowComplete r = true ∧ 0 < r.salary.getD 0 := by
  unfold prepareData
  simp only [List.mem_filter]
  constructor
  · rintro ⟨⟨hm, hc⟩, hs⟩
    refine ⟨hm, hc, ?_⟩
    rcases hsal : r.salary with _ | s
    · rw [hsal] at hs
      simp at hs
    · rw [hsal] at hs
      simpa using of_decide_eq_true hs
  · rintro ⟨hm, hc, hs⟩
    refine ⟨⟨hm, hc⟩, ?_⟩
    rcases hsal : r.salary with _ | s
    · exfalso
      simp [rowComplete, hsal] at hc
    · rw [hsal] at hs
      simp at hs
      simpa using hs

/-- C8: with the solver abstracted behind its status contract, a non-optimal
status makes `optimize_lineup` raise the unsolvable-lineup condition — a
condition distinct from the invalid-constraint condition — and an optimal
status makes it return the reconstructed `OptimizedLineup`. -/
theorem C8_nonoptimal_status_unsolvable (o : Optimizer)
    (solver : LpModel → LpStatusKind × (Nat → Bool)) (m : LpModel)
    (hm : buildModel o = .ok m) :
    ((solver m).1 ≠ .optimal →
      optimize_lineup o solver =
        .error (.unsolvableLineup "No optimal solution found under current lineup constraints")) ∧
    ((solver m).1 = .optimal →
      optimize_lineup o solver = .ok (reconstructLineup o (solver m).2)) ∧
    (∀ a b, DfsError.unsolvableLineup a ≠ DfsError.invalidConstraint b) := by
  have hopt : ∀ s : LpStatusKind, is_optimal_solution_found s = true ↔ s = .optimal := by
    intro s
    cases s <;> simp [is_optimal_solution_found, lpStatusName]
  refine ⟨?_, ?_, ?_⟩
  · intro hne
    unfold optimize_lineup
    rw [hm]
    have hb : is_optimal_solution_found (solver m).1 = false := by
      rcases hb : is_optimal_solution_found (solver m).1 with _ | _
      · rfl
      · exact absurd ((hopt _).mp hb) hne
    simp [hb]
  · intro heq
    unfold optimize_lineup
    rw [hm]
    have hb : is_optimal_solution_found (solver m).1 = true := (hopt _).mpr heq
    simp [hb]
  · intro a b hab
    exact DfsError.noConfusion hab

/-! ## Lemmas about linear-constraint evaluation and reconstruction sizes -/

/-- A sum of unit coefficients over selected rows counts the selected rows. -/
theorem evalTerms_ones {α : Type} (σ : Nat → Bool) (l : List (Nat × α)) :
    evalTerms σ (l.map (fun r => (r.1, (1 : ℚ)))) =
      ((l.filter (fun r => σ r.1)).length : ℚ) := by
  induction l with
  | nil => simp [evalTerms]
  | cons x xs ih =>
    rcases hb : σ x.1 with _ | _
    · simpa [evalTerms, List.filter_cons, hb] using ih
    · simp only [evalTerms, List.map_cons, List.map, List.sum_cons, List.filter_cons, hb,
        if_pos] at ih ⊢
      rw [ih, List.length_cons]
      push_cast
      ring

/-- A sum of salary coefficients over selected rows totals their salaries. -/
theorem evalTerms_salaries (σ : Nat → Bool) (l : List (Nat × Player)) :
    evalTerms σ (l.map (fun r => (r.1, r.2.salary))) =
      ((l.filter (fun r => σ r.1)).map (fun r => r.2.salary)).sum := by
  induction l with
  | nil => simp [evalTerms]
  | cons x xs ih =>
    rcases hb : σ x.1 with _ | _
    · simpa [evalTerms, List.filter_cons, hb] using ih
    · simp only [evalTerms, List.map_cons, List.map, List.sum_cons, List.filter_cons, hb,
        if_pos] at ih ⊢
      rw [ih]

/-- `insertStable` permutes the element onto the list. -/
theorem insertStable_perm (le : LineupPlayer → LineupPlayer → Bool) (x : LineupPlayer) :
    ∀ l : List LineupPlayer, (insertStable le x l).Perm (x :: l)
  | [] => by simp [insertStable]
  | y :: ys => by
    by_cases h : le y x = true
    · simp only [insertStable, h, if_pos]
      exact ((insertStable_perm le x ys).cons y).trans (List.Perm.swap x y ys)
    · simp [insertStable, h]

/-- The fold underlying `sortStable` permutes the accumulator and the input. -/
theorem foldl_insertStable_perm (le : LineupPlayer → LineupPlayer → Bool) :
    ∀ (l acc : List LineupPlayer),
      (l.foldl (fun acc x => insertStable le x acc) acc).Perm (acc ++ l)
  | [], acc => by simp
  | x :: ts, acc => by
    have ih := foldl_insertStable_perm le ts (insertStable le x acc)
    simp only [List.foldl_cons]
    refine ih.trans ?_
    refine ((insertStable_perm le x acc).append_right ts).trans ?_
    simpa using (@List.perm_middle _ x acc ts).symm

/-- `sortStable` is a permutation, as Python's `sorted` is. -/
theorem sortStable_perm (le : LineupPlayer → LineupPlayer → Bool) (l : List LineupPlayer) :
    (sortStable le l).Perm l := by
  simpa [sortStable] using foldl_insertStable_perm le l []

/-- Flex-slot resolution only relabels; it never changes the player count. -/
theorem flexResolve_length (pc : String → Int × Int) (players : List LineupPlayer) :
    (flexResolve pc players).length = players.length := by
  unfold flexResolve
  split
  · rfl
  · dsimp only
    split
    · rfl
    · simp

/-- C1: the model built by `optimize_lineup` always contains the fixed
lineup-size and salary-cap constraints, whatever the roster, site profile
and accepted user constraints; hence any 0/1 assignment satisfying every
model constraint selects exactly `num_players()` players with total salary
at most `salary_cap()`, and so does the lineup reconstructed from it. -/
theorem C1_fixed_size_and_cap_constraints (o : Optimizer) (m : LpModel)
    (hm : buildModel o = .ok m) :
    fixedSizeConstraint o ∈ m.constraintsList ∧
    fixedCapConstraint o ∈ m.constraintsList ∧
    ∀ σ : Nat → Bool, (∀ c ∈ m.constraintsList, satC σ c = true) →
      ((selectedPlayers σ o.data).length : Int) = o.profile.num_players ∧
      ((selectedPlayers σ o.data).map Player.salary).sum ≤ o.profile.salary_cap ∧
      ((reconstructLineup o σ).players.length : Int) = o.profile.num_players ∧
      (reconstructLineup o σ).salary ≤ o.profile.salary_cap := by
  unfold buildModel at hm
  split at hm
  · simp at hm
  · simp only [Except.ok.injEq] at hm
    subst hm
    refine ⟨by simp [List.mem_append], by simp [List.mem_append], ?_⟩
    intro σ hsat
    have hsize := hsat (fixedSizeConstraint o) (by simp [List.mem_append])
    have hcap := hsat (fixedCapConstraint o) (by simp [List.mem_append])
    have hsize' : evalTerms σ (o.data.enum.map (fun r => (r.1, (1 : ℚ)))) =
        (o.profile.num_players : ℚ) := by
      simpa [satC, fixedSizeConstraint] using hsize
    have hcap' : evalTerms σ (o.data.enum.map (fun r => (r.1, r.2.salary))) ≤
        o.profile.salary_cap := by
      simpa [satC, fixedCapConstraint] using hcap
    rw [evalTerms_ones] at hsize'
    rw [evalTerms_salaries] at hcap'
    have hlen : ((selectedPlayers σ o.data).length : Int) = o.profile.num_players := by
      have h2 : ((o.data.enum.filter (fun r => σ r.1)).length : Int) =
          o.profile.num_players := by exact_mod_cast hsize'
      simpa [selectedPlayers, selectedRows] using h2
    have hsal : ((selectedPlayers σ o.data).map Player.salary).sum ≤
        o.profile.salary_cap := by
      simpa [selectedPlayers, selectedRows, List.map_map, Function.comp] using hcap'
    refine ⟨hlen, hsal, ?_, ?_⟩
    · have hrl : (reconstructLineup o σ).players.length = (selectedRows σ o.data).length := by
        simp [reconstructLineup, (sortStable_perm _ _).length_eq, flexResolve_length]
      rw [hrl]
      simpa [selectedPlayers] using hlen
    · show (reconstructLineup o σ).salary ≤ o.profile.salary_cap
      simpa [reconstructLineup, selectedRows] using hcap'

/-! ## Lemmas for flex-slot resolution -/

/-- `insertStable` preserves sortedness for a total transitive comparison. -/
theorem insertStable_pairwise (le : LineupPlayer → LineupPlayer → Bool)
    (htot : ∀ a b, le a b = false → le b a = true)
    (htrans : ∀ a b c, le a b = true → le b c = true → le a c = true)
    (x : LineupPlayer) :
    ∀ l : List LineupPlayer, l.Pairwise (fun a b => le a b = true) →
      (insertStable le x l).Pairwise (fun a b => le a b = true)
  | [], _ => by simp [insertStable]
  | y :: ys, hl => by
    rcases List.pairwise_cons.mp hl with ⟨hy, hys⟩
    by_cases h : le y x = true
    · simp only [insertStable, h, if_pos]
      refine List.pairwise_cons.mpr ⟨?_, insertStable_pairwise le htot htrans x ys hys⟩
      intro z hz
      have hz' : z ∈ x :: ys := (insertStable_perm le x ys).mem_iff.mp hz
      rcases List.mem_cons.mp hz' with rfl | hz'
      · exact h
      · exact hy z hz'
    · have hxy : le x y = true := htot y x (Bool.not_eq_true _ ▸ h)
      simp only [insertStable, h, if_neg, Bool.false_eq_true, not_false_iff]
      refine List.pairwise_cons.mpr ⟨?_, hl⟩
      intro z hz
      rcases List.mem_cons.mp hz with rfl | hz'
      · exact hxy
      · exact htrans x y z hxy (hy z hz')

/-- The fold underlying `sortStable` produces a sorted list. -/
theorem foldl_insertStable_pairwise (le : LineupPlayer → LineupPlayer → Bool)
    (htot : ∀ a b, le a b = false → le b a = true)
    (htrans : ∀ a b c, le a b = true → le b c = true → le a c = true) :
    ∀ (l acc : List LineupPlayer), acc.Pairwise (fun a b => le a b = true) →
      (l.foldl (fun acc x => insertStable le x acc) acc).Pairwise (fun a b => le a b = true)
  | [], acc, hacc => hacc
  | x :: ts, acc, hacc => by
    simp only [List.foldl_cons]
    exact foldl_insertStable_pairwise le htot htrans ts _
      (insertStable_pairwise le htot htrans x acc hacc)

/-- `sortStable` output is sorted under a total transitive comparison. -/
theorem sortStable_pairwise (le : LineupPlayer → LineupPlayer → Bool)
    (htot : ∀ a b, le a b = false → le b a = true)
    (htrans : ∀ a b c, le a b = true → le b c = true → le a c = true)
    (l : List LineupPlayer) :
    (sortStable le l).Pairwise (fun a b => le a b = true) :=
  foldl_insertStable_pairwise le htot htrans l [] (List.Pairwise.nil)

/-- The last element of a list is a member. -/
theorem mem_of_getLast?_eq (x : LineupPlayer) :
    ∀ l : List LineupPlayer, l.getLast? = some x → x ∈ l
  | [], h => by simp at h
  | [z], h => by
    simp [List.getLast?] at h
    simp [h]
  | z :: w :: ws, h => by
    rw [List.getLast?_cons_cons] at h
    exact List.mem_cons_of_mem z (mem_of_getLast?_eq x (w :: ws) h)

/-- In a pairwise-sorted list, every element is either the last element or
related to it. -/
theorem pairwise_rel_getLast? (R : LineupPlayer → LineupPlayer → Prop) (x : LineupPlayer) :
    ∀ l : List LineupPlayer, l.Pairwise R → l.getLast? = some x →
      ∀ y ∈ l, y = x ∨ R y x
  | [], _, h => by simp at h
  | [z], _, h => by
    simp [List.getLast?] at h
    subst h
    intro y hy
    simp at hy
    exact Or.inl hy
  | z :: w :: ws, hp, h => by
    rw [List.getLast?_cons_cons] at h
    rcases List.pairwise_cons.mp hp with ⟨hz, hp'⟩
    intro y hy
    rcases List.mem_cons.mp hy with rfl | hy'
    · exact Or.inr (hz x (mem_of_getLast?_eq x (w :: ws) h))
    · exact pairwise_rel_getLast? R x (w :: ws) hp' h y hy'

/-- A nonempty list has a last element. -/
theorem getLast?_isSome_of_ne_nil :
    ∀ l : List LineupPlayer, l ≠ [] → ∃ x, l.getLast? = some x
  | [], h => absurd rfl h
  | [z], _ => ⟨z, rfl⟩
  | z :: w :: ws, _ => by
    rw [List.getLast?_cons_cons]
    exact getLast?_isSome_of_ne_nil (w :: ws) (by simp)

/-- The datetime comparison is total. -/
theorem datetimeLe_total (a b : LineupPlayer) (h : datetimeLe a b = false) :
    datetimeLe b a = true := by
  simp [datetimeLe] at h ⊢
  omega

/-- The datetime comparison is transitive. -/
theorem datetimeLe_trans (a b c : LineupPlayer) (hab : datetimeLe a b = true)
    (hbc : datetimeLe b c = true) : datetimeLe a c = true := by
  simp [datetimeLe] at hab hbc ⊢
  omega

/-- C7: flex-slot resolution examines `RB`, `WR`, `TE` in that fixed order;
when no position's selected count matches its configured maximum the lineup
is unchanged, and at the first matching position the player at that
position with the latest game start time — unique given pairwise-distinct
timestamps — has `lineup_position` relabeled to `FLEX` while everything
else is unchanged, so at most one `FLEX` slot is ever assigned.  The
hypotheses reflect the state after a successful solve: slot labels start
as the (non-`FLEX`) positions, row indices are distinct, and the site
position minimums keep at least one selected player at each of `RB`, `WR`
and `TE`. -/
theorem C7_flex_resolution (profile : SiteProfile) (players : List LineupPlayer)
    (hslot : ∀ q ∈ players, q.lineup_position = q.position ∧ q.position ≠ FLEX)
    (hidx : (players.map LineupPlayer.idx).Nodup)
    (hdt : players.Pairwise (fun a b => a.datetime.ts ≠ b.datetime.ts))
    (hcnt : ∀ pos ∈ [RB, WR, TE], 1 ≤ countPosition players pos) :
    (([RB, WR, TE].find? (fun pos =>
        (countPosition players pos : Int) == (positionBounds profile pos).2)) = none →
      flexResolve (positionBounds profile) players = players) ∧
    (∀ pos, [RB, WR, TE].find? (fun pos =>
        (countPosition players pos : Int) == (positionBounds profile pos).2) = some pos →
      ∃ x ∈ players, x.position = pos ∧
        (∀ y ∈ players, y.position = pos → y.datetime.ts ≤ x.datetime.ts) ∧
        (∀ y ∈ players, y.position = pos → y ≠ x → y.datetime.ts < x.datetime.ts) ∧
        flexResolve (positionBounds profile) players =
          players.map (fun q =>
            if q.idx == x.idx then { q with lineup_position := FLEX } else q)) ∧
    ((flexResolve (positionBounds profile) players).filter
        (fun q => q.lineup_position == FLEX)).length ≤ 1 := by
  have hmain : ∀ pos, [RB, WR, TE].find? (fun pos =>
      (countPosition players pos : Int) == (positionBounds profile pos).2) = some pos →
      ∃ x ∈ players, x.position = pos ∧
        (∀ y ∈ players, y.position = pos → y.datetime.ts ≤ x.datetime.ts) ∧
        (∀ y ∈ players, y.position = pos → y ≠ x → y.datetime.ts < x.datetime.ts) ∧
        flexResolve (positionBounds profile) players =
          players.map (fun q =>
            if q.idx == x.idx then { q with lineup_position := FLEX } else q) := by
    intro pos hfind
    have hmemPos : pos ∈ [RB, WR, TE] := List.mem_of_find?_eq_some hfind
    have hflen : 1 ≤ (players.filter (fun q => q.position == pos)).length := hcnt pos hmemPos
    have hsperm := sortStable_perm datetimeLe (players.filter (fun q => q.position == pos))
    have hne : sortStable datetimeLe (players.filter (fun q => q.position == pos)) ≠ [] := by
      intro hcon
      rw [hcon] at hsperm
      have := hsperm.length_eq
      simp at this
      omega
    obtain ⟨x, hx⟩ := getLast?_isSome_of_ne_nil _ hne
    have hxmem : x ∈ players.filter (fun q => q.position == pos) :=
      hsperm.mem_iff.mp (mem_of_getLast?_eq x _ hx)
    have hxp : x ∈ players ∧ x.position = pos := by
      have := List.mem_filter.mp hxmem
      exact ⟨this.1, by simpa using this.2⟩
    have hpair := sortStable_pairwise datetimeLe datetimeLe_total datetimeLe_trans
      (players.filter (fun q => q.position == pos))
    have hmax : ∀ y ∈ players, y.position = pos → y.datetime.ts ≤ x.datetime.ts := by
      intro y hy hypos
      have hyf : y ∈ players.filter (fun q => q.position == pos) :=
        List.mem_filter.mpr ⟨hy, by simp [hypos]⟩
      have hys : y ∈ sortStable datetimeLe (players.filter (fun q => q.position == pos)) :=
        hsperm.mem_iff.mpr hyf
      rcases pairwise_rel_getLast? _ x _ hpair hx y hys with rfl | hR
      · exact le_refl _
      · simpa [datetimeLe] using hR
    refine ⟨x, hxp.1, hxp.2, hmax, ?_, ?_⟩
    · intro y hy hypos hne2
      have hsym : Symmetric (fun a b : LineupPlayer => a.datetime.ts ≠ b.datetime.ts) :=
        fun a b hab => hab.symm
      have hne3 : y.datetime.ts ≠ x.datetime.ts := hdt.forall hsym hy hxp.1 hne2
      exact lt_of_le_of_ne (hmax y hy hypos) hne3
    · unfold flexResolve
      rw [hfind]
      dsimp only
      rw [hx]
  refine ⟨?_, hmain, ?_⟩
  · intro hnone
    unfold flexResolve
    rw [hnone]
  · rcases hfind : [RB, WR, TE].find? (fun pos =>
        (countPosition players pos : Int) == (positionBounds profile pos).2) with _ | pos
    · have heq : flexResolve (positionBounds profile) players = players := by
        unfold flexResolve
        rw [hfind]
      rw [heq]
      have hnil : players.filter (fun q => q.lineup_position == FLEX) = [] := by
        rw [List.filter_eq_nil_iff]
        intro q hq
        have := hslot q hq
        simp [this.1]
        exact this.2
      simp [hnil]
    · obtain ⟨x, hxmem, hxpos, _, _, heq⟩ := hmain pos hfind
      rw [heq]
      rw [List.filter_map]
      rw [List.length_map]
      have hcongr : players.filter ((fun q => q.lineup_position == FLEX) ∘
          (fun q => if q.idx == x.idx then { q with lineup_position := FLEX } else q)) =
          players.filter (fun q => q.idx == x.idx) := by
        apply List.filter_congr
        intro q hq
        by_cases hqi : q.idx = x.idx
        · simp [Function.comp, hqi, FLEX]
        · have := hslot q hq
          simp [Function.comp, hqi, this.1]
          exact this.2
      rw [hcongr]
      have hcount : (players.filter (fun q => q.idx == x.idx)).length =
          (players.map LineupPlayer.idx).count x.idx := by
        rw [List.count, List.countP_map, List.countP_eq_length_filter]
        rfl
      rw [hcount]
      exact List.nodup_iff_count_le_one.mp hidx x.idx

/-! ## Witnesses: the claim theorems evaluated at concrete inputs -/

/-- Witness for C1 at the one-player optimizer `wOpt` with the all-ones
assignment. -/
theorem C1_witness :
    (buildModel wOpt = .ok wModel ∧
      ∀ c ∈ wModel.constraintsList, satC (fun _ => true) c = true) ∧
    ((selectedPlayers (fun _ => true) wOpt.data).length : Int) = wOpt.profile.num_players ∧
    ((selectedPlayers (fun _ => true) wOpt.data).map Player.salary).sum ≤
      wOpt.profile.salary_cap ∧
    ((reconstructLineup wOpt (fun _ => true)).players.length : Int) =
      wOpt.profile.num_players ∧
    (reconstructLineup wOpt (fun _ => true)).salary ≤ wOpt.profile.salary_cap := by
  have hbuild : buildModel wOpt = .ok wModel := rfl
  have hsat : ∀ c ∈ wModel.constraintsList, satC (fun _ => true) c = true := by
    intro c hc
    fin_cases hc <;> norm_num [satC, evalTerms]
  exact ⟨⟨hbuild, hsat⟩,
    (C1_fixed_size_and_cap_constraints wOpt wModel hbuild).2.2 (fun _ => true) hsat⟩

/-- Witness for C3 (amended): a rejected single addition and a rejected
exact-team-count call, both evaluated concretely. -/
theorem C3_amended_witness :
    (add_constraint [LineupConstraint.minSalaryCap 50 "salary"] (.maxSalaryCap 40 "salary") =
      .error (.invalidConstraint
        "Invalid constraint: A min-salary constraint with value greater than this is already included.",
        [LineupConstraint.minSalaryCap 50 "salary"]) ∧
      [LineupConstraint.minSalaryCap 50 "salary"] = [LineupConstraint.minSalaryCap 50 "salary"]) ∧
    (set_num_players_from_team oSnp (some 3) (some "B") =
      .error (.invalidConstraint "Invalid constraint: Min players from this team already set",
        oSnp) ∧
      oSnp.constraintsList = oSnp.constraintsList) :=
  ⟨⟨rfl, C3_amended_rejection_rollback.1 [LineupConstraint.minSalaryCap 50 "salary"]
      (.maxSalaryCap 40 "salary")
      (.invalidConstraint
        "Invalid constraint: A min-salary constraint with value greater than this is already included.")
      [LineupConstraint.minSalaryCap 50 "salary"] rfl⟩,
   ⟨rfl, C3_amended_rejection_rollback.2 oSnp (some 3) (some "B")
      (.invalidConstraint "Invalid constraint: Min players from this team already set")
      oSnp rfl⟩⟩

/-- Witness for C4: against the empty set neither rejection condition
holds, and the min-players candidate is appended. -/
theorem C4_witness :
    (¬ ((∃ m tc, LineupConstraint.minPlayersFromTeam m "A" tc ∈ ([] : List LineupConstraint)) ∨
        ∃ m tc, LineupConstraint.maxPlayersFromTeam m "A" tc ∈ ([] : List LineupConstraint) ∧
          m < 2)) ∧
    add_constraint [] (.minPlayersFromTeam 2 "A" "team") =
      .ok [.minPlayersFromTeam 2 "A" "team"] :=
  ⟨by simp, (C4_team_filter_validation [] 2 "A" "team").2.2.1 (by simp)⟩

/-- Witness for C5: against the empty set no opposing bound exists, and the
max-salary-cap candidate is appended. -/
theorem C5_witness :
    (¬ ∃ s sc, LineupConstraint.minSalaryCap s sc ∈ ([] : List LineupConstraint) ∧
        (100 : ℚ) < s) ∧
    add_constraint [] (.maxSalaryCap 100 "salary") = .ok [.maxSalaryCap 100 "salary"] :=
  ⟨by simp, (C5_salary_cap_validation [] 100 "salary").2.2.1 (by simp)⟩

/-- Witness for C7 at a three-player lineup whose `RB` count meets the `RB`
maximum. -/
theorem C7_witness :
    ((∀ q ∈ wFlexPlayers, q.lineup_position = q.position ∧ q.position ≠ FLEX) ∧
     (wFlexPlayers.map LineupPlayer.idx).Nodup ∧
     wFlexPlayers.Pairwise (fun a b => a.datetime.ts ≠ b.datetime.ts) ∧
     (∀ pos ∈ [RB, WR, TE], 1 ≤ countPosition wFlexPlayers pos)) ∧
    ((flexResolve (positionBounds wFlexProfile) wFlexPlayers).filter
        (fun q => q.lineup_position == FLEX)).length ≤ 1 := by
  have h1 : ∀ q ∈ wFlexPlayers, q.lineup_position = q.position ∧ q.position ≠ FLEX := by decide
  have h2 : (wFlexPlayers.map LineupPlayer.idx).Nodup := by decide
  have h3 : wFlexPlayers.Pairwise (fun a b => a.datetime.ts ≠ b.datetime.ts) := by decide
  have h4 : ∀ pos ∈ [RB, WR, TE], 1 ≤ countPosition wFlexPlayers pos := by decide
  exact ⟨⟨h1, h2, h3, h4⟩,
    (C7_flex_resolution wFlexProfile wFlexPlayers h1 h2 h3 h4).2.2⟩

/-- Witness for C8: the one-player model handed to an infeasible-reporting
solver raises the unsolvable-lineup condition. -/
theorem C8_witness :
    (buildModel wOpt = .ok wModel ∧ (wSolverInfeasible wModel).1 ≠ .optimal) ∧
    optimize_lineup wOpt wSolverInfeasible =
      .error (.unsolvableLineup "No optimal solution found under current lineup constraints") := by
  have hbuild : buildModel wOpt = .ok wModel := rfl
  exact ⟨⟨hbuild, by decide⟩,
    (C8_nonoptimal_status_unsolvable wOpt wSolverInfeasible wModel hbuild).1 (by decide)⟩

/-- Witness for C9 at the one-player optimizer and its team `A`. -/
theorem C9_witness :
    (teamInData wOpt "A" = true ∧ (0 : Int) ≤ wOpt.profile.num_players) ∧
    set_min_players_from_team wOpt (some 0) (some "A") = .ok wOpt := by
  refine ⟨⟨by decide, by decide⟩, C9_min_zero_noop wOpt "A" (by decide) (by decide)⟩

/-- Witness for C10 at a one-player lineup. -/
theorem C10_witness :
    (writeRow (mkLineupPlayer 0 pQB) ∈ writeRows wLineup) ∧
    (writeRow (mkLineupPlayer 0 pQB)).map Prod.fst =
      ["datetime", "name", "opponent", "points", "position", "salary", "team"] := by
  have hrow : writeRow (mkLineupPlayer 0 pQB) ∈ writeRows wLineup := by
    simp [writeRows, wLineup]
  exact ⟨hrow, (C10_written_fields wLineup _ hrow).1⟩

end Dfs
